import Mathlib

/-!
# Verification of `efro.message._protocol.MessageProtocol`

Shallow embedding of `src/dist/ba_data/python/efro/message/_protocol.py`.

The wire level is modelled by JSON values (`JVal`); the textual rendering
performed by the stdlib `json.dumps` / `json.loads` pair is an external
collaborator and is modelled as the identity on parsed values, so a "wire
string" is represented by the parsed `JVal` it renders to.  Python dicts
are modelled as association lists with first-occurrence lookup (Python
dicts have unique keys, so this is faithful), preserving insertion order.

Message and user-defined Response dataclasses, together with the external
structural serializer `efro.dataclassio` (`dataclass_to_dict` /
`dataclass_from_dict`), are abstract: a `MsgWorld` / `RspWorld` packages
the concrete-type-of-an-instance function and the serializer pair, since
none of that code lives in this repository.  The two built-in response
dataclasses (`ErrorResponse`, `EmptyResponse`, in `efro.message._message`,
also outside this repository) are concrete and modelled from the spec.

Python failure behaviour is modelled by `Except`: an exception raised by a
method is an `Except.error` value carrying which exception it was.
-/

namespace EfroMessage

/-- A parsed JSON value (the wire-level data model). -/
inductive JVal where
  | jnull : JVal
  | jbool : Bool → JVal
  | jint : Int → JVal
  | jstr : String → JVal
  | jlist : List JVal → JVal
  | jobj : List (String × JVal) → JVal

/-- A generic string-keyed map, as produced by the structural serializer
(`dataclass_to_dict`) and as carried inside envelopes (Python `dict`). -/
abbrev JDict := List (String × JVal)

/-- Python `d.get(k)`: the value at the first (unique) occurrence of `k`. -/
def alistGet {α β : Type} [DecidableEq α] : List (α × β) → α → Option β
  | [], _ => none
  | (k', v) :: rest, k => if k' = k then some v else alistGet rest k

/-- Python `k in d`. -/
def alistContains {α β : Type} [DecidableEq α] (l : List (α × β)) (k : α) : Bool :=
  (alistGet l k).isSome

/-- Python `d[k] = v`: replace in place if the key is present, else append. -/
def alistSet {α β : Type} [DecidableEq α] : List (α × β) → α → β → List (α × β)
  | [], k, v => [(k, v)]
  | (k', v') :: rest, k, v =>
    if k' = k then (k, v) :: rest else (k', v') :: alistSet rest k v

/-- Python `d.pop(k)` after a successful lookup: remove the entry for `k`. -/
def alistRemove {α β : Type} [DecidableEq α] : List (α × β) → α → List (α × β)
  | [], _ => []
  | (k', v') :: rest, k =>
    if k' = k then rest else (k', v') :: alistRemove rest k

/-- The `ErrorType` enum of `efro.message._message` (outside this repo).
Modelled from the spec: `error_type: enum{CLEAN, OTHER}`. -/
inductive ErrorType where
  | clean : ErrorType
  | other : ErrorType
deriving DecidableEq

/-- Field data of the built-in `ErrorResponse` dataclass.  Modelled from the
spec: carries `error_message: string` and `error_type: enum{CLEAN, OTHER}`. -/
structure ErrorResponseData where
  error_message : String
  error_type : ErrorType
deriving DecidableEq

/-- A registered Response class: one of the two built-ins, or a user class
drawn from the abstract universe `UT` of user response types. -/
inductive RType (UT : Type) where
  | errorResponse : RType UT
  | emptyResponse : RType UT
  | user : UT → RType UT
deriving DecidableEq

/-- A Response instance: an instance of a built-in class, or a user
instance drawn from the abstract universe `UI`. -/
inductive RInst (UI : Type) where
  | errorResponse : ErrorResponseData → RInst UI
  | emptyResponse : RInst UI
  | user : UI → RInst UI
deriving DecidableEq

/-- The Message side of the external world: `MT` is the universe of
concrete Message classes, `MI` of Message instances.  `typeOf` is Python's
`type(...)`; `toDict` / `fromDict` are `dataclass_to_dict` /
`dataclass_from_dict` (`fromDict` returning `none` models the external
deserializer raising); `ioprepped` is `is_ioprepped_dataclass`; `name` is
the class `__name__`; `get_response_types` is the class method of the same
name declaring the legal response classes of a message class. -/
structure MsgWorld (MT MI UT : Type) where
  typeOf : MI → MT
  toDict : MI → JDict
  fromDict : MT → JDict → Option MI
  ioprepped : MT → Bool
  name : MT → String
  get_response_types : MT → List (RType UT)

/-- The user-defined Response side of the external world, with the same
fields as `MsgWorld` restricted to user response classes. -/
structure RspWorld (UT UI : Type) where
  typeOf : UI → UT
  toDict : UI → JDict
  fromDict : UT → JDict → Option UI
  ioprepped : UT → Bool

variable {MT MI UT UI : Type}

/-- Python `type(response)` over the full response instance universe. -/
def rTypeOf (R : RspWorld UT UI) : RInst UI → RType UT
  | .errorResponse _ => .errorResponse
  | .emptyResponse => .emptyResponse
  | .user i => .user (R.typeOf i)

/-- Wire spelling of an `ErrorType` value.  Modelled from the spec:
`"error_type": "CLEAN"|"OTHER"`. -/
def errorTypeStr : ErrorType → String
  | .clean => "CLEAN"
  | .other => "OTHER"

/-- Inverse of `errorTypeStr`, as the structural deserializer applies it. -/
def errorTypeOfStr (s : String) : Option ErrorType :=
  if s = "CLEAN" then some ErrorType.clean
  else if s = "OTHER" then some ErrorType.other
  else none

/-- `dataclass_to_dict` over the full response universe.  The built-in
shapes are modelled from the spec: ErrorResponse serializes to
`\x7b"error_message": string, "error_type": "CLEAN"|"OTHER"\x7d` and
EmptyResponse to the empty payload object. -/
def rToDict (R : RspWorld UT UI) : RInst UI → JDict
  | .errorResponse d =>
    [("error_message", JVal.jstr d.error_message),
     ("error_type", JVal.jstr (errorTypeStr d.error_type))]
  | .emptyResponse => []
  | .user i => R.toDict i

/-- `dataclass_from_dict` over the full response universe.  The built-in
shapes are modelled from the spec (see `rToDict`); a shape mismatch models
the external deserializer raising (`none`). -/
def rFromDict (R : RspWorld UT UI) : RType UT → JDict → Option (RInst UI)
  | .errorResponse, d =>
    match alistGet d "error_message", alistGet d "error_type" with
    | some (JVal.jstr m), some (JVal.jstr t) =>
      (errorTypeOfStr t).map (fun et => RInst.errorResponse ⟨m, et⟩)
    | _, _ => none
  | .emptyResponse, d => if d.isEmpty then some RInst.emptyResponse else none
  | .user t, d => (R.fromDict t d).map RInst.user

/-- `is_ioprepped_dataclass` over the full response class universe; the two
built-in classes are `@ioprepped` dataclasses at their definition site. -/
def rIoprepped (R : RspWorld UT UI) : RType UT → Bool
  | .user t => R.ioprepped t
  | _ => true

/-- A constructed `MessageProtocol`: the four registry maps built by
`__init__` plus the configuration flags it stores. -/
structure Protocol (MT UT : Type) where
  message_types_by_id : List (Int × MT)
  message_ids_by_type : List (MT × Int)
  response_types_by_id : List (Int × RType UT)
  response_ids_by_type : List (RType UT × Int)
  type_key : Option String
  preserve_clean_errors : Bool
  log_remote_exceptions : Bool
  trusted_sender : Bool
deriving DecidableEq

/-- Exceptions that can escape `_encode` (hence `encode_message` /
`encode_response`).  `typeError` is the `TypeError` raised for an
unregistered concrete type (spec: UnregisteredTypeError); `keyCollision`
is the `RuntimeError` raised when the configured type key already exists
in the serialized payload (spec: KeyCollisionError). -/
inductive EncodeErr where
  | typeError : String → EncodeErr
  | keyCollision : String → EncodeErr
deriving DecidableEq

/-- Exceptions that can escape `_decode` (hence `decode_message` /
`decode_response`).  `malformedEnvelope` covers the `AssertionError`s and
the `dict.pop` `KeyError` raised while parsing the envelope (spec:
MalformedEnvelopeError); `unregisteredMessageID` is
`UnregisteredMessageIDError`; `schemaError` is a failure propagated out of
the external `dataclass_from_dict`; `cleanError` / `remoteError` are the
`CleanError` / `RemoteError` raised when an ErrorResponse is decoded. -/
inductive DecodeErr where
  | malformedEnvelope : DecodeErr
  | unregisteredMessageID : Int → DecodeErr
  | schemaError : DecodeErr
  | cleanError : String → DecodeErr
  | remoteError : String → DecodeErr
deriving DecidableEq

/-- The framing step of `_encode` (lines 166-176): inject the id inline
under the type key (failing on collision), or wrap payload and id in a
fresh top-level dict. -/
def frameEnvelope (type_key : Option String) (m_id : Int) (msgdict : JDict) :
    Except EncodeErr JVal :=
  match type_key with
  | some key =>
    if alistContains msgdict key then
      Except.error (EncodeErr.keyCollision key)
    else
      Except.ok (JVal.jobj (alistSet msgdict key (JVal.jint m_id)))
  | none => Except.ok (JVal.jobj [("m", JVal.jobj msgdict), ("t", JVal.jint m_id)])

/-- `MessageProtocol._encode`, specialized to the message side: look the
concrete type up in `ids_by_type` (TypeError if absent), serialize the
payload, frame it. -/
def encode_message [DecidableEq MT] (p : Protocol MT UT) (W : MsgWorld MT MI UT)
    (message : MI) : Except EncodeErr JVal :=
  match alistGet p.message_ids_by_type (W.typeOf message) with
  | none => Except.error (EncodeErr.typeError "message")
  | some m_id => frameEnvelope p.type_key m_id (W.toDict message)

/-- `MessageProtocol._encode`, specialized to the response side. -/
def encode_response [DecidableEq UT] (p : Protocol MT UT) (R : RspWorld UT UI)
    (response : RInst UI) : Except EncodeErr JVal :=
  match alistGet p.response_ids_by_type (rTypeOf R response) with
  | none => Except.error (EncodeErr.typeError "response")
  | some m_id => frameEnvelope p.type_key m_id (rToDict R response)

/-- An `Exception` as `encode_error_response` observes it: whether it is an
`efro.error.CleanError` (`isinstance`), its `str(...)` rendering, and the
`traceback.format_exc()` text at the handling site. -/
structure Exc where
  isCleanError : Bool
  message : String
  formatExc : String

/-- `MessageProtocol.encode_error_response` (lines 140-154).  The
`log_remote_exceptions` logging call is an external side effect with no
wire-visible outcome and is not modelled. -/
def encode_error_response [DecidableEq UT] (p : Protocol MT UT)
    (R : RspWorld UT UI) (exc : Exc) : Except EncodeErr JVal :=
  let err_response : RInst UI :=
    if exc.isCleanError && p.preserve_clean_errors then
      RInst.errorResponse ⟨exc.message, ErrorType.clean⟩
    else
      RInst.errorResponse
        ⟨if p.trusted_sender then exc.formatExc
         else "An unknown error has occurred.",
         ErrorType.other⟩
  encode_response p R err_response

/-- Python's `isinstance(m_id, int)` view of a parsed JSON value: a JSON
integer is an int, and so is a JSON boolean, because `bool` is a subclass
of `int` in Python — `json.loads` turns `true`/`false` into `True`/`False`,
which pass the assert and compare/hash equal to `1`/`0` in dict lookups.
Anything else is not an int. -/
def jvalAsInt : JVal → Option Int
  | JVal.jint n => some n
  | JVal.jbool b => some (if b then 1 else 0)
  | _ => none

/-- The envelope-parsing prefix of `_decode` (lines 195-206): extract the
id and the payload dict per the active framing mode; a failed `assert` or
the `pop` `KeyError` is a malformed envelope.  The id check is
`isinstance(m_id, int)` (`jvalAsInt`), so a JSON boolean id is accepted
and takes part in the registry lookup as `1`/`0`. -/
def parseEnvelope (type_key : Option String) (data : JVal) :
    Except DecodeErr (Int × JDict) :=
  match data with
  | JVal.jobj msgfull =>
    match type_key with
    | some key =>
      match alistGet msgfull key with
      | none => Except.error DecodeErr.malformedEnvelope
      | some v =>
        match jvalAsInt v with
        | some m_id => Except.ok (m_id, alistRemove msgfull key)
        | none => Except.error DecodeErr.malformedEnvelope
    | none =>
      match alistGet msgfull "t", alistGet msgfull "m" with
      | some v, some (JVal.jobj msgdict) =>
        match jvalAsInt v with
        | some m_id => Except.ok (m_id, msgdict)
        | none => Except.error DecodeErr.malformedEnvelope
      | _, _ => Except.error DecodeErr.malformedEnvelope
  | _ => Except.error DecodeErr.malformedEnvelope

/-- `MessageProtocol.decode_message` = `_decode` against
`message_types_by_id` (lines 178-182, 192-228).  The EmptyResponse /
ErrorResponse `isinstance` special cases of `_decode` are vacuous here: the
deserializer returns an instance of the resolved Message class, and the
Message and Response class hierarchies are disjoint. -/
def decode_message [DecidableEq MT] (p : Protocol MT UT) (W : MsgWorld MT MI UT)
    (data : JVal) : Except DecodeErr MI := do
  let (m_id, msgdict) ← parseEnvelope p.type_key data
  match alistGet p.message_types_by_id m_id with
  | none => Except.error (DecodeErr.unregisteredMessageID m_id)
  | some msgtype =>
    match W.fromDict msgtype msgdict with
    | none => Except.error DecodeErr.schemaError
    | some out => Except.ok out

/-- `MessageProtocol.decode_response` = `_decode` against
`response_types_by_id` (lines 184-188, 192-228), with the two special
cases: a decoded EmptyResponse collapses to `none`, and a decoded
ErrorResponse raises CleanError or RemoteError instead of returning. -/
def decode_response [DecidableEq UT] (p : Protocol MT UT) (R : RspWorld UT UI)
    (data : JVal) : Except DecodeErr (Option (RInst UI)) := do
  let (m_id, msgdict) ← parseEnvelope p.type_key data
  match alistGet p.response_types_by_id m_id with
  | none => Except.error (DecodeErr.unregisteredMessageID m_id)
  | some msgtype =>
    match rFromDict R msgtype msgdict with
    | none => Except.error DecodeErr.schemaError
    | some out =>
      match out with
      | RInst.emptyResponse => Except.ok none
      | RInst.errorResponse d =>
        match p.preserve_clean_errors, d.error_type with
        | true, ErrorType.clean => Except.error (DecodeErr.cleanError d.error_message)
        | _, _ => Except.error (DecodeErr.remoteError d.error_message)
      | RInst.user i => Except.ok (some (RInst.user i))

/-- Exceptions that can escape `MessageProtocol.__init__` (run with
`__debug__` on, as the spec's construction-time invariants require).
`assertionError` is any failed `assert`; `missingResponseType` is the
`ValueError` raised when a declared response class is not registered (its
source message names the class); `duplicateTypeNames` is the `ValueError`
raised for duplicate message-class `__name__`s.  The spec calls all of
these ConfigError. -/
inductive ConfigError where
  | assertionError : ConfigError
  | missingResponseType : ConfigError
  | duplicateTypeNames : ConfigError
deriving DecidableEq

/-- The shape shared by the two registration loops of `__init__`: fill a
by-id map and a by-type map from the items of the argument dict, asserting
a non-negative id, a valid (ioprepped subclass) type, and that the id is
not yet taken.  The `isinstance(m_id, int)` asserts hold by typing here. -/
def buildRegMaps {τ : Type} [DecidableEq τ] (valid : τ → Bool) :
    List (Int × τ) → List (Int × τ) → List (τ × Int) →
    Except ConfigError (List (Int × τ) × List (τ × Int))
  | [], byId, byType => Except.ok (byId, byType)
  | (m_id, m_type) :: rest, byId, byType =>
    if m_id < 0 then Except.error ConfigError.assertionError
    else if !valid m_type then Except.error ConfigError.assertionError
    else if (alistGet byId m_id).isSome then Except.error ConfigError.assertionError
    else buildRegMaps valid rest (alistSet byId m_id m_type) (alistSet byType m_type m_id)

/-- The first `__init__` loop (lines 63-73), over the message maps. -/
def buildMsgMaps [DecidableEq MT] (W : MsgWorld MT MI UT)
    (message_types : List (Int × MT)) (byId : List (Int × MT))
    (byType : List (MT × Int)) :
    Except ConfigError (List (Int × MT) × List (MT × Int)) :=
  buildRegMaps W.ioprepped message_types byId byType

/-- The second `__init__` loop (lines 75-82), over the response maps. -/
def buildRspMaps [DecidableEq UT] (R : RspWorld UT UI)
    (response_types : List (Int × RType UT)) (byId : List (Int × RType UT))
    (byType : List (RType UT × Int)) :
    Except ConfigError (List (Int × RType UT) × List (RType UT × Int)) :=
  buildRegMaps (rIoprepped R) response_types byId byType

/-- `_reg_if_not` (lines 87-92): auto-register a built-in response class at
its reserved id unless its class is already registered, asserting the
reserved id itself is free. -/
def regIfNot [DecidableEq UT]
    (byId : List (Int × RType UT)) (byType : List (RType UT × Int))
    (reg_tp : RType UT) (reg_id : Int) :
    Except ConfigError (List (Int × RType UT) × List (RType UT × Int)) :=
  if alistContains byType reg_tp then Except.ok (byId, byType)
  else if (alistGet byId reg_id).isSome then Except.error ConfigError.assertionError
  else Except.ok (alistSet byId reg_id reg_tp, alistSet byType reg_tp reg_id)

/-- The first debug-block loop (lines 102-109): per message class, assert a
non-empty, duplicate-free declared response list, and accumulate their
union (`all_response_types`, a Python set, modelled as the concatenation:
re-checking a class in `checkCoverage` is outcome-equivalent). -/
def collectResponseTypes [DecidableEq UT] (W : MsgWorld MT MI UT) :
    List (Int × MT) → List (RType UT) → Except ConfigError (List (RType UT))
  | [], acc => Except.ok acc
  | (_, m_type) :: rest, acc =>
    let m_rtypes := W.get_response_types m_type
    if m_rtypes.isEmpty then Except.error ConfigError.assertionError
    else if m_rtypes.dedup.length ≠ m_rtypes.length then
      Except.error ConfigError.assertionError
    else collectResponseTypes W rest (acc ++ m_rtypes)

/-- The second debug-block loop (lines 110-116): every declared response
class must be ioprepped (assert) and registered (else the
`missingResponseType` ValueError). -/
def checkCoverage [DecidableEq UT] (R : RspWorld UT UI)
    (byType : List (RType UT × Int)) :
    List (RType UT) → Except ConfigError Unit
  | [] => Except.ok ()
  | cls :: rest =>
    if !rIoprepped R cls then Except.error ConfigError.assertionError
    else if !alistContains byType cls then Except.error ConfigError.missingResponseType
    else checkCoverage R byType rest

/-- The unique-base-names check (lines 118-125): the number of distinct
`__name__`s over the keys of `message_ids_by_type` must equal the size of
the `message_types` argument. -/
def checkUniqueNames (W : MsgWorld MT MI UT)
    (message_types : List (Int × MT)) (byType : List (MT × Int)) :
    Except ConfigError Unit :=
  if (byType.map (fun q => W.name q.1)).dedup.length ≠ message_types.length then
    Except.error ConfigError.duplicateTypeNames
  else Except.ok ()

/-- `MessageProtocol.__init__` (lines 33-130): build and validate the four
registry maps, auto-register the built-in response classes at the reserved
ids -1 and -2, run the debug-mode validation, and store the configuration.
A Python `dict` argument is modelled as its insertion-ordered item list
(whose keys are therefore unique). -/
def protocolInit [DecidableEq MT] [DecidableEq UT]
    (W : MsgWorld MT MI UT) (R : RspWorld UT UI)
    (message_types : List (Int × MT)) (response_types : List (Int × RType UT))
    (type_key : Option String) (preserve_clean_errors : Bool)
    (log_remote_exceptions : Bool) (trusted_sender : Bool) :
    Except ConfigError (Protocol MT UT) := do
  let (mById, mByType) ← buildMsgMaps W message_types [] []
  let (rById, rByType) ← buildRspMaps R response_types [] []
  let (rById, rByType) ← regIfNot rById rByType RType.errorResponse (-1)
  let (rById, rByType) ← regIfNot rById rByType RType.emptyResponse (-2)
  let all_response_types ← collectResponseTypes W message_types []
  let _ ← checkCoverage R rByType all_response_types
  let _ ← checkUniqueNames W message_types mByType
  Except.ok
    { message_types_by_id := mById
      message_ids_by_type := mByType
      response_types_by_id := rById
      response_ids_by_type := rByType
      type_key := type_key
      preserve_clean_errors := preserve_clean_errors
      log_remote_exceptions := log_remote_exceptions
      trusted_sender := trusted_sender }

/-! ## A small concrete instantiation

One user message class `Ping` carrying an integer field `val`, and one
user response class `Pong` carrying an integer field `val`, mirroring the
spec's end-to-end example; used to evaluate the embedding at concrete
inputs. -/

/-- The universe holding the single concrete message class `Ping`. -/
inductive PingT where
  | ping : PingT
deriving DecidableEq

/-- An instance of `Ping`: an integer field `val`. -/
structure PingI where
  val : Int
deriving DecidableEq

/-- The universe holding the single concrete user response class `Pong`. -/
inductive PongT where
  | pong : PongT
deriving DecidableEq

/-- An instance of `Pong`: an integer field `val`. -/
structure PongI where
  val : Int
deriving DecidableEq

/-- The concrete message world: `Ping` serializes to `\x7b"val": int\x7d`. -/
def cW : MsgWorld PingT PingI PongT where
  typeOf := fun _ => PingT.ping
  toDict := fun m => [("val", JVal.jint m.val)]
  fromDict := fun _ d =>
    match d with
    | [("val", JVal.jint n)] => some ⟨n⟩
    | _ => none
  ioprepped := fun _ => true
  name := fun _ => "Ping"
  get_response_types := fun _ => [RType.emptyResponse, RType.user PongT.pong]

/-- The concrete user-response world: `Pong` serializes to `\x7b"val": int\x7d`. -/
def cR : RspWorld PongT PongI where
  typeOf := fun _ => PongT.pong
  toDict := fun r => [("val", JVal.jint r.val)]
  fromDict := fun _ d =>
    match d with
    | [("val", JVal.jint n)] => some ⟨n⟩
    | _ => none
  ioprepped := fun _ => true

/-- A universe holding two distinct message classes that share the base
name "Ping" (e.g. same-named classes from two different modules). -/
inductive Ping2T where
  | a : Ping2T
  | b : Ping2T
deriving DecidableEq

/-- A message world with two distinct classes both named "Ping". -/
def cW2 : MsgWorld Ping2T PingI PongT where
  typeOf := fun _ => Ping2T.a
  toDict := fun m => [("val", JVal.jint m.val)]
  fromDict := fun _ d =>
    match d with
    | [("val", JVal.jint n)] => some ⟨n⟩
    | _ => none
  ioprepped := fun _ => true
  name := fun _ => "Ping"
  get_response_types := fun _ => [RType.user PongT.pong]

/-- The protocol produced by `protocolInit cW cR [(1, Ping)] [(1, Pong)]`
with default configuration (wrapper framing). -/
def cProto : Protocol PingT PongT where
  message_types_by_id := [(1, PingT.ping)]
  message_ids_by_type := [(PingT.ping, 1)]
  response_types_by_id :=
    [(1, RType.user PongT.pong), (-1, RType.errorResponse), (-2, RType.emptyResponse)]
  response_ids_by_type :=
    [(RType.user PongT.pong, 1), (RType.errorResponse, -1), (RType.emptyResponse, -2)]
  type_key := none
  preserve_clean_errors := true
  log_remote_exceptions := true
  trusted_sender := false

/-- `cProto` with inline framing under the key `"val"`, which collides
with the payload field of `Ping` and `Pong`. -/
def cProtoInline : Protocol PingT PongT :=
  { cProto with type_key := some "val" }

/-- `cProto` with `trusted_sender` enabled. -/
def cProtoTrusted : Protocol PingT PongT :=
  { cProto with trusted_sender := true }

/-- The protocol produced when the caller explicitly maps `ErrorResponse`
at id 0: the caller's id is honored, no entry at -1 exists, and only
`EmptyResponse` is auto-registered. -/
def cProto2 : Protocol PingT PongT where
  message_types_by_id := [(1, PingT.ping)]
  message_ids_by_type := [(PingT.ping, 1)]
  response_types_by_id :=
    [(0, RType.errorResponse), (1, RType.user PongT.pong), (-2, RType.emptyResponse)]
  response_ids_by_type :=
    [(RType.errorResponse, 0), (RType.user PongT.pong, 1), (RType.emptyResponse, -2)]
  type_key := none
  preserve_clean_errors := true
  log_remote_exceptions := true
  trusted_sender := false

/-! ## Association-list lemmas -/

theorem alistGet_nil {α β : Type} [DecidableEq α] (k : α) :
    alistGet ([] : List (α × β)) k = none := rfl

theorem alistGet_cons {α β : Type} [DecidableEq α] (k' k : α) (v : β) (l : List (α × β)) :
    alistGet ((k', v) :: l) k = if k' = k then some v else alistGet l k := rfl

theorem alistGet_set {α β : Type} [DecidableEq α] (l : List (α × β)) (k j : α) (v : β) :
    alistGet (alistSet l k v) j = if k = j then some v else alistGet l j := by
  induction l with
  | nil => simp [alistSet, alistGet]
  | cons hd tl ih =>
    obtain ⟨k', v'⟩ := hd
    by_cases hk : k' = k
    · subst hk
      simp only [alistSet, if_pos rfl, alistGet_cons]
      by_cases hj : k' = j <;> simp [alistGet_cons, hj]
    · simp only [alistSet, if_neg hk, alistGet_cons, ih]
      by_cases hj : k' = j
      · subst hj
        have : ¬ k = k' := fun h => hk h.symm
        simp [this]
      · simp [hj]

theorem alistGet_set_self {α β : Type} [DecidableEq α] (l : List (α × β)) (k : α) (v : β) :
    alistGet (alistSet l k v) k = some v := by
  simp [alistGet_set]

theorem alistGet_set_ne {α β : Type} [DecidableEq α] (l : List (α × β)) (k j : α) (v : β)
    (h : k ≠ j) : alistGet (alistSet l k v) j = alistGet l j := by
  simp [alistGet_set, h]

theorem alistRemove_set {α β : Type} [DecidableEq α] (l : List (α × β)) (k : α) (v : β)
    (h : alistGet l k = none) : alistRemove (alistSet l k v) k = l := by
  induction l with
  | nil => simp [alistSet, alistRemove]
  | cons hd tl ih =>
    obtain ⟨k', v'⟩ := hd
    rw [alistGet_cons] at h
    by_cases hk : k' = k
    · simp [hk] at h
    · simp only [if_neg hk] at h
      simp [alistSet, alistRemove, hk, ih h]

theorem alistGet_mem {α β : Type} [DecidableEq α] {l : List (α × β)} {k : α} {v : β}
    (h : alistGet l k = some v) : (k, v) ∈ l := by
  induction l with
  | nil => simp [alistGet] at h
  | cons hd tl ih =>
    obtain ⟨k', v'⟩ := hd
    rw [alistGet_cons] at h
    by_cases hk : k' = k
    · subst hk
      simp at h
      simp [h]
    · simp only [if_neg hk] at h
      exact List.mem_cons_of_mem _ (ih h)

theorem alistSet_isSome_mono {α β : Type} [DecidableEq α] (l : List (α × β)) (k j : α)
    (v : β) (h : (alistGet l j).isSome) : (alistGet (alistSet l k v) j).isSome := by
  rw [alistGet_set]
  by_cases hk : k = j
  · simp [hk]
  · simp [hk, h]

theorem alistSet_length_le {α β : Type} [DecidableEq α] (l : List (α × β)) (k : α) (v : β) :
    (alistSet l k v).length ≤ l.length + 1 := by
  induction l with
  | nil => simp [alistSet]
  | cons hd tl ih =>
    obtain ⟨k', v'⟩ := hd
    by_cases hk : k' = k
    · simp only [alistSet, if_pos hk, List.length_cons]
      omega
    · simp only [alistSet, if_neg hk, List.length_cons]
      omega

/-! ## Envelope lemmas -/

/-- Framing followed by envelope parsing restores the id and the payload:
the inline-mode id injection is undone exactly by the `pop`, and the
wrapper-mode "m"/"t" dict is read back field by field. -/
theorem parseEnvelope_frameEnvelope (type_key : Option String) (m_id : Int)
    (msgdict : JDict) (w : JVal) (h : frameEnvelope type_key m_id msgdict = Except.ok w) :
    parseEnvelope type_key w = Except.ok (m_id, msgdict) := by
  match type_key with
  | none =>
    simp only [frameEnvelope, Except.ok.injEq] at h
    subst h
    simp [parseEnvelope, jvalAsInt, alistGet_cons]
  | some key =>
    simp only [frameEnvelope] at h
    by_cases hc : alistContains msgdict key
    · simp [hc] at h
    · simp only [hc, Bool.false_eq_true, if_neg, reduceIte, Except.ok.injEq] at h
      subst h
      have hget : alistGet msgdict key = none :=
        Option.not_isSome_iff_eq_none.mp (by simpa [alistContains] using hc)
      simp [parseEnvelope, jvalAsInt, alistGet_set_self, alistRemove_set _ _ _ hget]

/-- `Except` do-notation step used by `_decode`. -/
theorem except_bind_ok {ε α β : Type} (a : α) (f : α → Except ε β) :
    (Except.ok a : Except ε α) >>= f = f a := rfl

/-- Unfold `decode_message` past a successful envelope parse. -/
theorem decode_message_parse [DecidableEq MT] (p : Protocol MT UT)
    (W : MsgWorld MT MI UT) (data : JVal) (i : Int) (d : JDict)
    (h : parseEnvelope p.type_key data = Except.ok (i, d)) :
    decode_message p W data =
      match alistGet p.message_types_by_id i with
      | none => Except.error (DecodeErr.unregisteredMessageID i)
      | some msgtype =>
        match W.fromDict msgtype d with
        | none => Except.error DecodeErr.schemaError
        | some out => Except.ok out := by
  unfold decode_message
  rw [h]
  rfl

/-- Unfold `decode_response` past a successful envelope parse. -/
theorem decode_response_parse [DecidableEq UT] (p : Protocol MT UT)
    (R : RspWorld UT UI) (data : JVal) (i : Int) (d : JDict)
    (h : parseEnvelope p.type_key data = Except.ok (i, d)) :
    decode_response p R data =
      match alistGet p.response_types_by_id i with
      | none => Except.error (DecodeErr.unregisteredMessageID i)
      | some msgtype =>
        match rFromDict R msgtype d with
        | none => Except.error DecodeErr.schemaError
        | some out =>
          match out with
          | RInst.emptyResponse => Except.ok none
          | RInst.errorResponse dd =>
            match p.preserve_clean_errors, dd.error_type with
            | true, ErrorType.clean => Except.error (DecodeErr.cleanError dd.error_message)
            | _, _ => Except.error (DecodeErr.remoteError dd.error_message)
          | RInst.user u => Except.ok (some (RInst.user u)) := by
  unfold decode_response
  rw [h]
  rfl

/-- A failed envelope parse is the outcome of `decode_message`. -/
theorem decode_message_parse_error [DecidableEq MT] (p : Protocol MT UT)
    (W : MsgWorld MT MI UT) (data : JVal) (e : DecodeErr)
    (h : parseEnvelope p.type_key data = Except.error e) :
    decode_message p W data = Except.error e := by
  unfold decode_message
  rw [h]
  rfl

/-- A failed envelope parse is the outcome of `decode_response`. -/
theorem decode_response_parse_error [DecidableEq UT] (p : Protocol MT UT)
    (R : RspWorld UT UI) (data : JVal) (e : DecodeErr)
    (h : parseEnvelope p.type_key data = Except.error e) :
    decode_response p R data = Except.error e := by
  unfold decode_response
  rw [h]
  rfl

/-! ## Claim theorems -/

/-- Claim C2: for every exception that is not a preserved clean error,
with `trusted_sender` off, `encode_error_response` produces the encoding
of an ErrorResponse whose `error_message` is exactly the fixed string
"An unknown error has occurred." — in particular the wire output is the
same for any two such failures; with `trusted_sender` on, the full
failure detail (the formatted traceback) is the `error_message`. -/
theorem encode_error_response_privacy [DecidableEq UT] (p : Protocol MT UT)
    (R : RspWorld UT UI) (exc exc2 : Exc)
    (h : ¬(exc.isCleanError = true ∧ p.preserve_clean_errors = true))
    (h2 : ¬(exc2.isCleanError = true ∧ p.preserve_clean_errors = true)) :
    (p.trusted_sender = false →
      encode_error_response p R exc =
        encode_response p R
          (RInst.errorResponse ⟨"An unknown error has occurred.", ErrorType.other⟩) ∧
      encode_error_response p R exc = encode_error_response p R exc2) ∧
    (p.trusted_sender = true →
      encode_error_response p R exc =
        encode_response p R (RInst.errorResponse ⟨exc.formatExc, ErrorType.other⟩)) := by
  have hb : (exc.isCleanError && p.preserve_clean_errors) = false := by
    cases hc : exc.isCleanError
    · rfl
    · cases hp : p.preserve_clean_errors
      · rfl
      · exact absurd ⟨hc, hp⟩ h
  have hb2 : (exc2.isCleanError && p.preserve_clean_errors) = false := by
    cases hc : exc2.isCleanError
    · rfl
    · cases hp : p.preserve_clean_errors
      · rfl
      · exact absurd ⟨hc, hp⟩ h2
  constructor
  · intro ht
    constructor
    · simp [encode_error_response, hb, ht]
    · simp [encode_error_response, hb, hb2, ht]
  · intro ht
    simp [encode_error_response, hb, ht]

/-- Witness for C2: at `cProto` (untrusted) two distinct internal failures
encode identically to the fixed-string ErrorResponse; at `cProtoTrusted`
the traceback text is carried. -/
theorem encode_error_response_privacy_witness :
    (encode_error_response cProto cR ⟨false, "oops", "tb one"⟩ =
       encode_response cProto cR
         (RInst.errorResponse ⟨"An unknown error has occurred.", ErrorType.other⟩) ∧
     encode_error_response cProto cR ⟨false, "oops", "tb one"⟩ =
       encode_error_response cProto cR ⟨false, "worse", "tb two"⟩) ∧
    encode_error_response cProtoTrusted cR ⟨false, "oops", "tb one"⟩ =
      encode_response cProtoTrusted cR
        (RInst.errorResponse ⟨"tb one", ErrorType.other⟩) :=
  ⟨(encode_error_response_privacy cProto cR ⟨false, "oops", "tb one"⟩
      ⟨false, "worse", "tb two"⟩ (by simp) (by simp)).1 rfl,
   (encode_error_response_privacy cProtoTrusted cR ⟨false, "oops", "tb one"⟩
      ⟨false, "worse", "tb two"⟩ (by simp) (by simp)).2 rfl⟩

/-- Claim C5: under inline framing (`type_key` set), encoding a registered
message whose serialized payload already contains the configured key fails
with the key-collision error (the `RuntimeError` of lines 170-171, the
spec's KeyCollisionError) and yields no wire output — the `Except.error`
result is the entire outcome of the call, and `encode_message` mutates no
state. -/
theorem encode_message_inline_collision [DecidableEq MT] (p : Protocol MT UT)
    (W : MsgWorld MT MI UT) (m : MI) (key : String) (i : Int)
    (htk : p.type_key = some key)
    (hreg : alistGet p.message_ids_by_type (W.typeOf m) = some i)
    (hcol : alistContains (W.toDict m) key = true) :
    encode_message p W m = Except.error (EncodeErr.keyCollision key) := by
  simp [encode_message, hreg, frameEnvelope, htk, hcol]

/-- Witness for C5: `cProtoInline` frames inline under the key `"val"`,
which is a payload field of `Ping`. -/
theorem encode_message_inline_collision_witness :
    encode_message cProtoInline cW ⟨7⟩ = Except.error (EncodeErr.keyCollision "val") :=
  encode_message_inline_collision cProtoInline cW ⟨7⟩ "val" 1 rfl rfl rfl

/-- Claim C4: `decode_response` of an encoded `EmptyResponse` returns the
absent value `none`, never an EmptyResponse instance; and in general any
successfully decoded payload that resolves to the EmptyResponse variant
collapses to `none`. -/
theorem decode_response_empty_collapse [DecidableEq UT] (p : Protocol MT UT)
    (R : RspWorld UT UI) (i mid : Int) (w w2 : JVal) (d : JDict) (r : RInst UI)
    (hreg : alistGet p.response_ids_by_type RType.emptyResponse = some i)
    (hback : alistGet p.response_types_by_id i = some RType.emptyResponse)
    (henc : encode_response p R RInst.emptyResponse = Except.ok w)
    (hp2 : parseEnvelope p.type_key w2 = Except.ok (mid, d))
    (hres2 : alistGet p.response_types_by_id mid = some RType.emptyResponse)
    (hdec2 : rFromDict R RType.emptyResponse d = some r) :
    decode_response p R w = Except.ok none ∧
    decode_response p R w2 = Except.ok none := by
  constructor
  · have henc' : frameEnvelope p.type_key i [] = Except.ok w := by
      simpa [encode_response, rTypeOf, hreg, rToDict] using henc
    have hparse := parseEnvelope_frameEnvelope p.type_key i [] w henc'
    rw [decode_response_parse p R w i [] hparse, hback]
    rfl
  · have he : d.isEmpty = true := by
      by_cases he : d.isEmpty
      · exact he
      · simp [rFromDict, he] at hdec2
    have hfd : rFromDict R RType.emptyResponse d = some RInst.emptyResponse := by
      simp [rFromDict, he]
    rw [decode_response_parse p R w2 mid d hp2]
    simp [hres2, hfd]

/-- Witness for C4: the wrapper-mode wire of `EmptyResponse` under
`cProto` is `\x7b"m":\x7b\x7d,"t":-2\x7d` and decodes to `none`; the
general collapse conjunct is exercised at the same envelope. -/
theorem decode_response_empty_collapse_witness :
    decode_response cProto cR
        (JVal.jobj [("m", JVal.jobj []), ("t", JVal.jint (-2))]) = Except.ok none ∧
    decode_response cProto cR
        (JVal.jobj [("m", JVal.jobj []), ("t", JVal.jint (-2))]) = Except.ok none :=
  decode_response_empty_collapse cProto cR (-2) (-2)
    (JVal.jobj [("m", JVal.jobj []), ("t", JVal.jint (-2))])
    (JVal.jobj [("m", JVal.jobj []), ("t", JVal.jint (-2))])
    [] RInst.emptyResponse rfl rfl rfl rfl rfl rfl

/-- Claim C1 counterexample: the response half of the round-trip property
fails on the built-in variants.  `EmptyResponse` is registered (at -2 in
`cProto`) and its empty payload survives the structural serializer, yet
`decode_response (encode_response EmptyResponse())` is the absent value
`none`, not the instance. -/
theorem response_roundtrip_counterexample :
    encode_response cProto cR RInst.emptyResponse =
      Except.ok (JVal.jobj [("m", JVal.jobj []), ("t", JVal.jint (-2))]) ∧
    decode_response cProto cR (JVal.jobj [("m", JVal.jobj []), ("t", JVal.jint (-2))]) =
      Except.ok none ∧
    (Except.ok none : Except DecodeErr (Option (RInst PongI))) ≠
      Except.ok (some RInst.emptyResponse) :=
  ⟨rfl, rfl, fun h => Option.noConfusion (Except.ok.inj h)⟩

/-- Claim C1 (amended): for every registered Message variant and instance
whose payload survives the external structural serializer, and whose
encoding succeeds, `decode_message (encode_message m) = m`; on the
response side the same holds for every registered non-built-in (user)
Response variant — the built-in `EmptyResponse` collapses to absence and
`ErrorResponse` raises instead of returning, so they are excluded. -/
theorem message_response_roundtrip [DecidableEq MT] [DecidableEq UT]
    (p : Protocol MT UT) (W : MsgWorld MT MI UT) (R : RspWorld UT UI)
    (m : MI) (u : UI) (im iu : Int) (wm wu : JVal)
    (hm1 : alistGet p.message_ids_by_type (W.typeOf m) = some im)
    (hm2 : alistGet p.message_types_by_id im = some (W.typeOf m))
    (hm3 : W.fromDict (W.typeOf m) (W.toDict m) = some m)
    (hmenc : encode_message p W m = Except.ok wm)
    (hu1 : alistGet p.response_ids_by_type (RType.user (R.typeOf u)) = some iu)
    (hu2 : alistGet p.response_types_by_id iu = some (RType.user (R.typeOf u)))
    (hu3 : R.fromDict (R.typeOf u) (R.toDict u) = some u)
    (huenc : encode_response p R (RInst.user u) = Except.ok wu) :
    decode_message p W wm = Except.ok m ∧
    decode_response p R wu = Except.ok (some (RInst.user u)) := by
  constructor
  · have henc' : frameEnvelope p.type_key im (W.toDict m) = Except.ok wm := by
      simpa [encode_message, hm1] using hmenc
    have hparse := parseEnvelope_frameEnvelope _ _ _ _ henc'
    rw [decode_message_parse p W wm im (W.toDict m) hparse]
    simp [hm2, hm3]
  · have henc' : frameEnvelope p.type_key iu (R.toDict u) = Except.ok wu := by
      simpa [encode_response, rTypeOf, hu1, rToDict] using huenc
    have hparse := parseEnvelope_frameEnvelope _ _ _ _ henc'
    rw [decode_response_parse p R wu iu (R.toDict u) hparse]
    simp [hu2, rFromDict, hu3]

/-- Witness for the amended C1: `Ping(val=7)` and `Pong(val=3)` round-trip
through the wrapper-mode wire under `cProto`. -/
theorem message_response_roundtrip_witness :
    decode_message cProto cW
        (JVal.jobj [("m", JVal.jobj [("val", JVal.jint 7)]), ("t", JVal.jint 1)]) =
      Except.ok ⟨7⟩ ∧
    decode_response cProto cR
        (JVal.jobj [("m", JVal.jobj [("val", JVal.jint 3)]), ("t", JVal.jint 1)]) =
      Except.ok (some (RInst.user ⟨3⟩)) :=
  message_response_roundtrip cProto cW cR ⟨7⟩ ⟨3⟩ 1 1
    (JVal.jobj [("m", JVal.jobj [("val", JVal.jint 7)]), ("t", JVal.jint 1)])
    (JVal.jobj [("m", JVal.jobj [("val", JVal.jint 3)]), ("t", JVal.jint 1)])
    rfl rfl rfl rfl rfl rfl rfl rfl

/-- Claim C3: with `preserve_clean_errors` enabled, encoding a clean
failure carrying message `s` and decoding the resulting wire value raises
a CleanError carrying exactly `s` — `decode_response` yields the
`cleanError` exception outcome, never a Response value. -/
theorem clean_error_roundtrip [DecidableEq UT] (p : Protocol MT UT)
    (R : RspWorld UT UI) (exc : Exc) (i : Int) (w : JVal)
    (hpre : p.preserve_clean_errors = true)
    (hclean : exc.isCleanError = true)
    (hreg : alistGet p.response_ids_by_type RType.errorResponse = some i)
    (hback : alistGet p.response_types_by_id i = some RType.errorResponse)
    (henc : encode_error_response p R exc = Except.ok w) :
    decode_response p R w = Except.error (DecodeErr.cleanError exc.message) := by
  have henc' : frameEnvelope p.type_key i
      [("error_message", JVal.jstr exc.message),
       ("error_type", JVal.jstr "CLEAN")] = Except.ok w := by
    simpa [encode_error_response, hclean, hpre, encode_response, rTypeOf, hreg,
           rToDict, errorTypeStr] using henc
  have hparse := parseEnvelope_frameEnvelope _ _ _ _ henc'
  rw [decode_response_parse p R w i _ hparse]
  simp [hback, rFromDict, alistGet_cons, errorTypeOfStr, hpre]

/-- Witness for C3: the clean failure with message "bad input" under
`cProto` (which preserves clean errors) comes back as a CleanError with
exactly that message. -/
theorem clean_error_roundtrip_witness :
    decode_response cProto cR
        (JVal.jobj
          [("m", JVal.jobj
            [("error_message", JVal.jstr "bad input"),
             ("error_type", JVal.jstr "CLEAN")]),
           ("t", JVal.jint (-1))]) =
      Except.error (DecodeErr.cleanError "bad input") :=
  clean_error_roundtrip cProto cR ⟨true, "bad input", "tb"⟩ (-1)
    (JVal.jobj
      [("m", JVal.jobj
        [("error_message", JVal.jstr "bad input"),
         ("error_type", JVal.jstr "CLEAN")]),
       ("t", JVal.jint (-1))])
    rfl rfl rfl rfl rfl

/-! ### Malformed-envelope lemmas -/

theorem parseEnvelope_not_obj (tk : Option String) (w : JVal)
    (h : ∀ d, w ≠ JVal.jobj d) :
    parseEnvelope tk w = Except.error DecodeErr.malformedEnvelope := by
  cases w with
  | jobj d => exact absurd rfl (h d)
  | jnull => rfl
  | jbool b => rfl
  | jint n => rfl
  | jstr s => rfl
  | jlist xs => rfl

theorem parseEnvelope_wrapper_missing_id (f : JDict) (h : alistGet f "t" = none) :
    parseEnvelope none (JVal.jobj f) = Except.error DecodeErr.malformedEnvelope := by
  simp [parseEnvelope, h]

theorem parseEnvelope_wrapper_missing_payload (f : JDict)
    (h : alistGet f "m" = none) :
    parseEnvelope none (JVal.jobj f) = Except.error DecodeErr.malformedEnvelope := by
  simp [parseEnvelope, h]

theorem parseEnvelope_wrapper_id_not_int (f : JDict) (v : JVal)
    (h : alistGet f "t" = some v) (hn : jvalAsInt v = none) :
    parseEnvelope none (JVal.jobj f) = Except.error DecodeErr.malformedEnvelope := by
  simp only [parseEnvelope, h]
  cases hm : alistGet f "m" with
  | none => rfl
  | some w => cases w <;> simp [hn]

theorem parseEnvelope_wrapper_payload_not_map (f : JDict) (v : JVal)
    (h : alistGet f "m" = some v) (hn : ∀ d, v ≠ JVal.jobj d) :
    parseEnvelope none (JVal.jobj f) = Except.error DecodeErr.malformedEnvelope := by
  simp only [parseEnvelope, h]
  cases v with
  | jobj d => exact absurd rfl (hn d)
  | jnull =>
    cases ht : alistGet f "t" with
    | none => rfl
    | some w => cases w <;> rfl
  | jbool b =>
    cases ht : alistGet f "t" with
    | none => rfl
    | some w => cases w <;> rfl
  | jint n =>
    cases ht : alistGet f "t" with
    | none => rfl
    | some w => cases w <;> rfl
  | jstr s =>
    cases ht : alistGet f "t" with
    | none => rfl
    | some w => cases w <;> rfl
  | jlist xs =>
    cases ht : alistGet f "t" with
    | none => rfl
    | some w => cases w <;> rfl

theorem parseEnvelope_inline_missing_key (key : String) (f : JDict)
    (h : alistGet f key = none) :
    parseEnvelope (some key) (JVal.jobj f) = Except.error DecodeErr.malformedEnvelope := by
  simp [parseEnvelope, h]

theorem parseEnvelope_inline_id_not_int (key : String) (f : JDict) (v : JVal)
    (h : alistGet f key = some v) (hn : jvalAsInt v = none) :
    parseEnvelope (some key) (JVal.jobj f) = Except.error DecodeErr.malformedEnvelope := by
  simp [parseEnvelope, h, hn]

/-- Claim C7: every malformed envelope — a non-dict top level, a missing
id field, a missing payload, a non-integer id, or a non-dict payload, in
either framing mode — makes both `decode_message` and `decode_response`
fail with the malformed-envelope error (a failed `assert` or the `pop`
`KeyError`, the spec's MalformedEnvelopeError), which is distinct from
`unregisteredMessageID` and from any success.  "Not an integer" is
`isinstance(m_id, int)`'s sense (`jvalAsInt v = none`): a JSON-boolean id
is an int to Python and is NOT malformed — the final conjunct shows such
an envelope parses with id `1`/`0` and so proceeds to the registry
lookup.  `p` is a wrapper-mode protocol and `q` an inline-mode one; `w0`
is a non-dict wire value and `f1`-`f7` exhibit the individual cases. -/
theorem decode_malformed_envelope [DecidableEq MT] [DecidableEq UT]
    (p q : Protocol MT UT) (W : MsgWorld MT MI UT) (R : RspWorld UT UI)
    (w0 : JVal) (f1 f2 f3 f4 f5 f6 f7 d7 : JDict) (v3 v4 v6 : JVal)
    (b : Bool) (key : String)
    (h0 : ∀ d, w0 ≠ JVal.jobj d)
    (hp : p.type_key = none) (hq : q.type_key = some key)
    (h1 : alistGet f1 "t" = none)
    (h2 : alistGet f2 "m" = none)
    (h3t : alistGet f3 "t" = some v3) (h3 : jvalAsInt v3 = none)
    (h4m : alistGet f4 "m" = some v4) (h4 : ∀ d, v4 ≠ JVal.jobj d)
    (h5 : alistGet f5 key = none)
    (h6 : alistGet f6 key = some v6) (h6n : jvalAsInt v6 = none)
    (h7t : alistGet f7 "t" = some (JVal.jbool b))
    (h7m : alistGet f7 "m" = some (JVal.jobj d7)) :
    (decode_message p W w0 = Except.error DecodeErr.malformedEnvelope ∧
     decode_response p R w0 = Except.error DecodeErr.malformedEnvelope) ∧
    (decode_message p W (JVal.jobj f1) = Except.error DecodeErr.malformedEnvelope ∧
     decode_response p R (JVal.jobj f1) = Except.error DecodeErr.malformedEnvelope) ∧
    (decode_message p W (JVal.jobj f2) = Except.error DecodeErr.malformedEnvelope ∧
     decode_response p R (JVal.jobj f2) = Except.error DecodeErr.malformedEnvelope) ∧
    (decode_message p W (JVal.jobj f3) = Except.error DecodeErr.malformedEnvelope ∧
     decode_response p R (JVal.jobj f3) = Except.error DecodeErr.malformedEnvelope) ∧
    (decode_message p W (JVal.jobj f4) = Except.error DecodeErr.malformedEnvelope ∧
     decode_response p R (JVal.jobj f4) = Except.error DecodeErr.malformedEnvelope) ∧
    (decode_message q W (JVal.jobj f5) = Except.error DecodeErr.malformedEnvelope ∧
     decode_response q R (JVal.jobj f5) = Except.error DecodeErr.malformedEnvelope) ∧
    (decode_message q W (JVal.jobj f6) = Except.error DecodeErr.malformedEnvelope ∧
     decode_response q R (JVal.jobj f6) = Except.error DecodeErr.malformedEnvelope) ∧
    parseEnvelope p.type_key (JVal.jobj f7) =
      Except.ok ((if b then 1 else 0 : Int), d7) := by
  have e0 := parseEnvelope_not_obj p.type_key w0 h0
  have e1 : parseEnvelope p.type_key (JVal.jobj f1) =
      Except.error DecodeErr.malformedEnvelope := by
    rw [hp]
    exact parseEnvelope_wrapper_missing_id f1 h1
  have e2 : parseEnvelope p.type_key (JVal.jobj f2) =
      Except.error DecodeErr.malformedEnvelope := by
    rw [hp]
    exact parseEnvelope_wrapper_missing_payload f2 h2
  have e3 : parseEnvelope p.type_key (JVal.jobj f3) =
      Except.error DecodeErr.malformedEnvelope := by
    rw [hp]
    exact parseEnvelope_wrapper_id_not_int f3 v3 h3t h3
  have e4 : parseEnvelope p.type_key (JVal.jobj f4) =
      Except.error DecodeErr.malformedEnvelope := by
    rw [hp]
    exact parseEnvelope_wrapper_payload_not_map f4 v4 h4m h4
  have e5 : parseEnvelope q.type_key (JVal.jobj f5) =
      Except.error DecodeErr.malformedEnvelope := by
    rw [hq]
    exact parseEnvelope_inline_missing_key key f5 h5
  have e6 : parseEnvelope q.type_key (JVal.jobj f6) =
      Except.error DecodeErr.malformedEnvelope := by
    rw [hq]
    exact parseEnvelope_inline_id_not_int key f6 v6 h6 h6n
  have e7 : parseEnvelope p.type_key (JVal.jobj f7) =
      Except.ok ((if b then 1 else 0 : Int), d7) := by
    rw [hp]
    simp [parseEnvelope, h7t, h7m, jvalAsInt]
  exact ⟨⟨decode_message_parse_error p W w0 _ e0,
          decode_response_parse_error p R w0 _ e0⟩,
         ⟨decode_message_parse_error p W _ _ e1,
          decode_response_parse_error p R _ _ e1⟩,
         ⟨decode_message_parse_error p W _ _ e2,
          decode_response_parse_error p R _ _ e2⟩,
         ⟨decode_message_parse_error p W _ _ e3,
          decode_response_parse_error p R _ _ e3⟩,
         ⟨decode_message_parse_error p W _ _ e4,
          decode_response_parse_error p R _ _ e4⟩,
         ⟨decode_message_parse_error q W _ _ e5,
          decode_response_parse_error q R _ _ e5⟩,
         ⟨decode_message_parse_error q W _ _ e6,
          decode_response_parse_error q R _ _ e6⟩, e7⟩

/-- Witness for C7: a non-dict top level, a missing "t", a missing "m", a
string "t", a non-dict "m" (under wrapper-mode `cProto`), and a missing or
non-integer type key (under inline-mode `cProtoInline`) each decode to the
malformed-envelope error, while a boolean id `true` parses as id 1. -/
theorem decode_malformed_envelope_witness :
    decode_message cProto cW (JVal.jint 0) =
      Except.error DecodeErr.malformedEnvelope ∧
    decode_message cProto cW (JVal.jobj []) =
      Except.error DecodeErr.malformedEnvelope ∧
    decode_response cProto cR (JVal.jobj [("t", JVal.jint 1)]) =
      Except.error DecodeErr.malformedEnvelope ∧
    decode_message cProto cW (JVal.jobj [("t", JVal.jstr "x")]) =
      Except.error DecodeErr.malformedEnvelope ∧
    decode_response cProto cR (JVal.jobj [("t", JVal.jint 1), ("m", JVal.jint 2)]) =
      Except.error DecodeErr.malformedEnvelope ∧
    decode_message cProtoInline cW (JVal.jobj []) =
      Except.error DecodeErr.malformedEnvelope ∧
    decode_response cProtoInline cR (JVal.jobj [("val", JVal.jstr "y")]) =
      Except.error DecodeErr.malformedEnvelope ∧
    parseEnvelope cProto.type_key
        (JVal.jobj [("t", JVal.jbool true), ("m", JVal.jobj [])]) =
      Except.ok ((1 : Int), []) := by
  have h := decode_malformed_envelope cProto cProtoInline cW cR
    (JVal.jint 0) [] [("t", JVal.jint 1)] [("t", JVal.jstr "x")]
    [("t", JVal.jint 1), ("m", JVal.jint 2)] [] [("val", JVal.jstr "y")]
    [("t", JVal.jbool true), ("m", JVal.jobj [])] []
    (JVal.jstr "x") (JVal.jint 2) (JVal.jstr "y") true "val"
    (fun d hd => JVal.noConfusion hd) rfl rfl rfl rfl rfl
    rfl rfl (fun d hd => JVal.noConfusion hd)
    rfl rfl rfl rfl rfl
  exact ⟨h.1.1, h.2.1.1, h.2.2.1.2, h.2.2.2.1.1, h.2.2.2.2.1.2,
         h.2.2.2.2.2.1.1, h.2.2.2.2.2.2.1.2, h.2.2.2.2.2.2.2⟩

/-! ### Registration-loop lemmas -/

theorem except_bind_error {ε α β : Type} (e : ε) (f : α → Except ε β) :
    (Except.error e : Except ε α) >>= f = Except.error e := rfl

theorem buildRegMaps_cons {τ : Type} [DecidableEq τ] (valid : τ → Bool)
    (k : Int) (t : τ) (rest : List (Int × τ)) (byId : List (Int × τ))
    (byType : List (τ × Int)) :
    buildRegMaps valid ((k, t) :: rest) byId byType =
      if k < 0 then Except.error ConfigError.assertionError
      else if !valid t then Except.error ConfigError.assertionError
      else if (alistGet byId k).isSome then Except.error ConfigError.assertionError
      else buildRegMaps valid rest (alistSet byId k t) (alistSet byType t k) := rfl

/-- Every id accepted by a registration loop is non-negative (the
`assert m_id >= 0`). -/
theorem buildRegMaps_ids_nonneg {τ : Type} [DecidableEq τ] (valid : τ → Bool)
    (l : List (Int × τ)) :
    ∀ byId byType r, buildRegMaps valid l byId byType = Except.ok r →
      ∀ q ∈ l, 0 ≤ q.1 := by
  induction l with
  | nil =>
    intro byId byType r h q hq
    simp at hq
  | cons hd tl ih =>
    intro byId byType r h q hq
    obtain ⟨k, t⟩ := hd
    rw [buildRegMaps_cons] at h
    split_ifs at h with h1 h2 h3
    rcases List.mem_cons.mp hq with hq | hq
    · subst hq
      exact Int.not_lt.mp h1
    · exact ih _ _ _ h q hq

/-- A negative id never enters the by-id map during a registration loop. -/
theorem buildRegMaps_byId_neg {τ : Type} [DecidableEq τ] (valid : τ → Bool)
    (l : List (Int × τ)) :
    ∀ byId byType byId' byType',
      buildRegMaps valid l byId byType = Except.ok (byId', byType') →
      ∀ j, j < 0 → alistGet byId j = none → alistGet byId' j = none := by
  induction l with
  | nil =>
    intro byId byType byId' byType' h j hj hnone
    simp only [buildRegMaps, Except.ok.injEq, Prod.mk.injEq] at h
    rw [← h.1]
    exact hnone
  | cons hd tl ih =>
    intro byId byType byId' byType' h j hj hnone
    obtain ⟨k, t⟩ := hd
    rw [buildRegMaps_cons] at h
    split_ifs at h with h1 h2 h3
    refine ih _ _ _ _ h j hj ?_
    rw [alistGet_set_ne byId k j t ?_]
    · exact hnone
    · intro hkj
      subst hkj
      exact h1 hj

/-- Each input pair's id is not yet in the by-id map when the loop
reaches it (else the duplicate-id assert would have fired). -/
theorem buildRegMaps_fresh {τ : Type} [DecidableEq τ] (valid : τ → Bool)
    (l : List (Int × τ)) :
    ∀ byId byType r, buildRegMaps valid l byId byType = Except.ok r →
      ∀ q ∈ l, alistGet byId q.1 = none := by
  induction l with
  | nil =>
    intro byId byType r h q hq
    simp at hq
  | cons hd tl ih =>
    intro byId byType r h q hq
    obtain ⟨k, t⟩ := hd
    rw [buildRegMaps_cons] at h
    split_ifs at h with h1 h2 h3
    rcases List.mem_cons.mp hq with hq | hq
    · subst hq
      exact Option.not_isSome_iff_eq_none.mp h3
    · have := ih _ _ _ h q hq
      rw [alistGet_set] at this
      by_cases hk : k = q.1
      · simp [hk] at this
      · rwa [if_neg hk] at this

/-- If no input pair carries the class `t`, the loop leaves the by-type
entry for `t` untouched. -/
theorem buildRegMaps_byType_absent {τ : Type} [DecidableEq τ] (valid : τ → Bool)
    (l : List (Int × τ)) :
    ∀ byId byType byId' byType',
      buildRegMaps valid l byId byType = Except.ok (byId', byType') →
      ∀ t, (∀ q ∈ l, q.2 ≠ t) → alistGet byType' t = alistGet byType t := by
  induction l with
  | nil =>
    intro byId byType byId' byType' h t habs
    simp only [buildRegMaps, Except.ok.injEq, Prod.mk.injEq] at h
    rw [← h.2]
  | cons hd tl ih =>
    intro byId byType byId' byType' h t habs
    obtain ⟨k, s⟩ := hd
    rw [buildRegMaps_cons] at h
    split_ifs at h with h1 h2 h3
    rw [ih _ _ _ _ h t (fun q hq => habs q (List.mem_cons_of_mem _ hq))]
    exact alistGet_set_ne byType s t k (habs (k, s) (List.mem_cons_self _ _))

/-- If the class `t` is mapped (to the single id `i`) by the input, the
loop records exactly that mapping in the by-type map. -/
theorem buildRegMaps_byType_present {τ : Type} [DecidableEq τ] (valid : τ → Bool)
    (l : List (Int × τ)) :
    ∀ byId byType byId' byType',
      buildRegMaps valid l byId byType = Except.ok (byId', byType') →
      ∀ t i, (i, t) ∈ l → (∀ j, (j, t) ∈ l → j = i) →
        alistGet byType' t = some i := by
  induction l with
  | nil =>
    intro byId byType byId' byType' h t i hmem huniq
    simp at hmem
  | cons hd tl ih =>
    intro byId byType byId' byType' h t i hmem huniq
    obtain ⟨k, s⟩ := hd
    rw [buildRegMaps_cons] at h
    split_ifs at h with h1 h2 h3
    by_cases hst : s = t
    · subst hst
      have hki : k = i := huniq k (List.mem_cons_self _ _)
      subst hki
      have habs : ∀ q ∈ tl, q.2 ≠ s := by
        intro q hq hqs
        have hji : q.1 = k := huniq q.1 (by
          rw [← hqs]
          exact List.mem_cons_of_mem _ hq)
        have hfresh := buildRegMaps_fresh valid tl _ _ _ h q hq
        rw [hji, alistGet_set_self] at hfresh
        exact Option.noConfusion hfresh
      rw [buildRegMaps_byType_absent valid tl _ _ _ _ h s habs]
      exact alistGet_set_self byType s k
    · have hmem' : (i, t) ∈ tl := by
        rcases List.mem_cons.mp hmem with hh | hh
        · exact absurd (congrArg Prod.snd hh).symm hst
        · exact hh
      exact ih _ _ _ _ h t i hmem'
        (fun j hj => huniq j (List.mem_cons_of_mem _ hj))

/-- The by-type map grows by at most one entry per input pair. -/
theorem buildRegMaps_byType_len {τ : Type} [DecidableEq τ] (valid : τ → Bool)
    (l : List (Int × τ)) :
    ∀ byId byType byId' byType',
      buildRegMaps valid l byId byType = Except.ok (byId', byType') →
      byType'.length ≤ byType.length + l.length := by
  induction l with
  | nil =>
    intro byId byType byId' byType' h
    simp only [buildRegMaps, Except.ok.injEq, Prod.mk.injEq] at h
    rw [← h.2]
    simp
  | cons hd tl ih =>
    intro byId byType byId' byType' h
    obtain ⟨k, s⟩ := hd
    rw [buildRegMaps_cons] at h
    split_ifs at h with h1 h2 h3
    have := ih _ _ _ _ h
    have hlen := alistSet_length_le byType s k
    simp only [List.length_cons]
    omega

/-- The by-type map keeps an entry once present. -/
theorem buildRegMaps_byType_isSome_mono {τ : Type} [DecidableEq τ] (valid : τ → Bool)
    (l : List (Int × τ)) :
    ∀ byId byType byId' byType',
      buildRegMaps valid l byId byType = Except.ok (byId', byType') →
      ∀ t, (alistGet byType t).isSome → (alistGet byType' t).isSome := by
  induction l with
  | nil =>
    intro byId byType byId' byType' h t hs
    simp only [buildRegMaps, Except.ok.injEq, Prod.mk.injEq] at h
    rw [← h.2]
    exact hs
  | cons hd tl ih =>
    intro byId byType byId' byType' h t hs
    obtain ⟨k, s⟩ := hd
    rw [buildRegMaps_cons] at h
    split_ifs at h with h1 h2 h3
    exact ih _ _ _ _ h t (alistSet_isSome_mono byType s t k hs)

/-- Every registered class ends up with some entry in the by-type map. -/
theorem buildRegMaps_byType_isSome {τ : Type} [DecidableEq τ] (valid : τ → Bool)
    (l : List (Int × τ)) :
    ∀ byId byType byId' byType',
      buildRegMaps valid l byId byType = Except.ok (byId', byType') →
      ∀ q ∈ l, (alistGet byType' q.2).isSome := by
  induction l with
  | nil =>
    intro byId byType byId' byType' h q hq
    simp at hq
  | cons hd tl ih =>
    intro byId byType byId' byType' h q hq
    obtain ⟨k, s⟩ := hd
    rw [buildRegMaps_cons] at h
    split_ifs at h with h1 h2 h3
    rcases List.mem_cons.mp hq with hq | hq
    · subst hq
      refine buildRegMaps_byType_isSome_mono valid tl _ _ _ _ h _ ?_
      rw [alistGet_set_self]
      rfl
    · exact ih _ _ _ _ h q hq

/-- Inversion of `_reg_if_not`: it either leaves both maps untouched
(class already registered) or inserts the reserved pair into both. -/
theorem regIfNot_inv [DecidableEq UT]
    (byId : List (Int × RType UT)) (byType : List (RType UT × Int))
    (reg_tp : RType UT) (reg_id : Int)
    (byId' : List (Int × RType UT)) (byType' : List (RType UT × Int))
    (h : regIfNot byId byType reg_tp reg_id = Except.ok (byId', byType')) :
    (alistContains byType reg_tp = true ∧ byId' = byId ∧ byType' = byType) ∨
    (alistContains byType reg_tp = false ∧ alistGet byId reg_id = none ∧
     byId' = alistSet byId reg_id reg_tp ∧ byType' = alistSet byType reg_tp reg_id) := by
  unfold regIfNot at h
  by_cases hc : alistContains byType reg_tp
  · left
    rw [if_pos hc] at h
    simp only [Except.ok.injEq, Prod.mk.injEq] at h
    exact ⟨hc, h.1.symm, h.2.symm⟩
  · right
    rw [if_neg hc] at h
    by_cases hs : (alistGet byId reg_id).isSome
    · rw [if_pos hs] at h
      exact Except.noConfusion h
    · rw [if_neg hs] at h
      simp only [Except.ok.injEq, Prod.mk.injEq] at h
      exact ⟨Bool.of_not_eq_true hc, Option.not_isSome_iff_eq_none.mp hs,
             h.1.symm, h.2.symm⟩

/-- Inversion of `protocolInit`: a successfully constructed protocol is
exactly the record assembled from the outputs of the successive
construction stages. -/
theorem protocolInit_inv [DecidableEq MT] [DecidableEq UT]
    (W : MsgWorld MT MI UT) (R : RspWorld UT UI)
    (mts : List (Int × MT)) (rts : List (Int × RType UT))
    (tk : Option String) (pc lg ts : Bool) (p : Protocol MT UT)
    (h : protocolInit W R mts rts tk pc lg ts = Except.ok p) :
    ∃ mById mByType rById rByType rById1 rByType1 rById2 rByType2 arts,
      buildMsgMaps W mts [] [] = Except.ok (mById, mByType) ∧
      buildRspMaps R rts [] [] = Except.ok (rById, rByType) ∧
      regIfNot rById rByType RType.errorResponse (-1) = Except.ok (rById1, rByType1) ∧
      regIfNot rById1 rByType1 RType.emptyResponse (-2) = Except.ok (rById2, rByType2) ∧
      collectResponseTypes W mts [] = Except.ok arts ∧
      checkCoverage R rByType2 arts = Except.ok () ∧
      checkUniqueNames W mts mByType = Except.ok () ∧
      p = { message_types_by_id := mById
            message_ids_by_type := mByType
            response_types_by_id := rById2
            response_ids_by_type := rByType2
            type_key := tk
            preserve_clean_errors := pc
            log_remote_exceptions := lg
            trusted_sender := ts } := by
  unfold protocolInit at h
  cases h1 : buildMsgMaps W mts [] [] with
  | error e =>
    rw [h1, except_bind_error] at h
    exact Except.noConfusion h
  | ok pr1 =>
    obtain ⟨mById, mByType⟩ := pr1
    simp only [h1, except_bind_ok] at h
    cases h2 : buildRspMaps R rts [] [] with
    | error e =>
      rw [h2, except_bind_error] at h
      exact Except.noConfusion h
    | ok pr2 =>
      obtain ⟨rById, rByType⟩ := pr2
      simp only [h2, except_bind_ok] at h
      cases h3 : regIfNot rById rByType RType.errorResponse (-1) with
      | error e =>
        rw [h3, except_bind_error] at h
        exact Except.noConfusion h
      | ok pr3 =>
        obtain ⟨rById1, rByType1⟩ := pr3
        simp only [h3, except_bind_ok] at h
        cases h4 : regIfNot rById1 rByType1 RType.emptyResponse (-2) with
        | error e =>
          rw [h4, except_bind_error] at h
          exact Except.noConfusion h
        | ok pr4 =>
          obtain ⟨rById2, rByType2⟩ := pr4
          simp only [h4, except_bind_ok] at h
          cases h5 : collectResponseTypes W mts [] with
          | error e =>
            rw [h5, except_bind_error] at h
            exact Except.noConfusion h
          | ok arts =>
            simp only [h5, except_bind_ok] at h
            cases h6 : checkCoverage R rByType2 arts with
            | error e =>
              rw [h6, except_bind_error] at h
              exact Except.noConfusion h
            | ok u6 =>
              obtain ⟨⟩ := u6
              simp only [h6, except_bind_ok] at h
              cases h7 : checkUniqueNames W mts mByType with
              | error e =>
                rw [h7, except_bind_error] at h
                exact Except.noConfusion h
              | ok u7 =>
                obtain ⟨⟩ := u7
                simp only [h7, except_bind_ok] at h
                exact ⟨mById, mByType, rById, rByType, rById1, rByType1,
                       rById2, rByType2, arts, rfl, rfl, h3, h4, rfl, h6, h7,
                       (Except.ok.inj h).symm⟩

/-- When every registered message class declares a non-empty,
duplicate-free response list, the first debug-block loop succeeds and
returns the concatenation of the declared lists. -/
theorem collectResponseTypes_eq [DecidableEq UT] (W : MsgWorld MT MI UT)
    (l : List (Int × MT))
    (h : ∀ q ∈ l, W.get_response_types q.2 ≠ [] ∧
         (W.get_response_types q.2).dedup.length = (W.get_response_types q.2).length) :
    ∀ acc, collectResponseTypes W l acc =
      Except.ok (acc ++ (l.map (fun q => W.get_response_types q.2)).flatten) := by
  induction l with
  | nil =>
    intro acc
    simp [collectResponseTypes]
  | cons hd tl ih =>
    intro acc
    obtain ⟨hne, hdd⟩ := h hd (List.mem_cons_self _ _)
    have hne' : (W.get_response_types hd.2).isEmpty = false := by
      cases hh : W.get_response_types hd.2 with
      | nil => exact absurd hh hne
      | cons a b => rfl
    obtain ⟨k, t⟩ := hd
    rw [collectResponseTypes]
    simp only [hne', Bool.false_eq_true, if_false, hdd, ne_eq,
      not_true_eq_false, if_neg (by simp [hdd] : ¬ (W.get_response_types t).dedup.length ≠ (W.get_response_types t).length)]
    rw [ih (fun q hq => h q (List.mem_cons_of_mem _ hq))]
    simp [List.append_assoc]

/-- If some declared response class is unregistered while every declared
class is ioprepped, the second debug-block loop raises the
`missingResponseType` ValueError. -/
theorem checkCoverage_missing [DecidableEq UT] (R : RspWorld UT UI)
    (byType : List (RType UT × Int)) (arts : List (RType UT)) (rt : RType UT)
    (hok : ∀ x ∈ arts, rIoprepped R x = true)
    (hmem : rt ∈ arts) (habs : alistContains byType rt = false) :
    checkCoverage R byType arts = Except.error ConfigError.missingResponseType := by
  induction arts with
  | nil => simp at hmem
  | cons x tl ih =>
    rw [checkCoverage]
    rw [hok x (List.mem_cons_self _ _)]
    by_cases hcx : alistContains byType x
    · simp only [hcx, Bool.not_true, Bool.false_eq_true, if_false]
      refine ih (fun y hy => hok y (List.mem_cons_of_mem _ hy)) ?_
      rcases List.mem_cons.mp hmem with hh | hh
      · subst hh
        rw [hcx] at habs
        exact Bool.noConfusion habs
      · exact hh
    · simp only [Bool.not_eq_true] at hcx
      simp [hcx]

/-- Claim C6: decoding a well-formed envelope whose id is absent from the
relevant registry map raises `UnregisteredMessageIDError`, on both the
message and the response side; and in any constructed protocol the message
map holds no negative ids (they are asserted non-negative), so the
built-in response ids -1 and -2 are unregistered for `decode_message` —
an ErrorResponse envelope arriving where a Message is expected is rejected
with `unregisteredMessageID`, not surfaced as a reconstructed remote
failure. -/
theorem decode_unknown_id [DecidableEq MT] [DecidableEq UT]
    (W : MsgWorld MT MI UT) (R : RspWorld UT UI)
    (mts : List (Int × MT)) (rts : List (Int × RType UT))
    (tk : Option String) (pc lg ts : Bool) (p : Protocol MT UT)
    (wire wire2 wire3 : JVal) (i i2 : Int) (d d2 d3 : JDict)
    (hinit : protocolInit W R mts rts tk pc lg ts = Except.ok p) :
    (parseEnvelope p.type_key wire = Except.ok (i, d) →
     alistGet p.message_types_by_id i = none →
     decode_message p W wire = Except.error (DecodeErr.unregisteredMessageID i)) ∧
    (parseEnvelope p.type_key wire2 = Except.ok (i2, d2) →
     alistGet p.response_types_by_id i2 = none →
     decode_response p R wire2 = Except.error (DecodeErr.unregisteredMessageID i2)) ∧
    (alistGet p.message_types_by_id (-1) = none ∧
     alistGet p.message_types_by_id (-2) = none) ∧
    (parseEnvelope p.type_key wire3 = Except.ok (-1, d3) →
     decode_message p W wire3 = Except.error (DecodeErr.unregisteredMessageID (-1))) := by
  obtain ⟨mById, mByType, rById, rByType, rById1, rByType1, rById2, rByType2,
          arts, h1, h2, h3, h4, h5, h6, h7, hp⟩ :=
    protocolInit_inv W R mts rts tk pc lg ts p hinit
  have hneg : ∀ j : Int, j < 0 → alistGet p.message_types_by_id j = none := by
    intro j hj
    have := buildRegMaps_byId_neg W.ioprepped mts [] [] mById mByType h1 j hj rfl
    rw [hp]
    exact this
  refine ⟨?_, ?_, ⟨hneg (-1) (by omega), hneg (-2) (by omega)⟩, ?_⟩
  · intro hparse hnone
    rw [decode_message_parse p W wire i d hparse, hnone]
  · intro hparse hnone
    rw [decode_response_parse p R wire2 i2 d2 hparse, hnone]
  · intro hparse
    rw [decode_message_parse p W wire3 (-1) d3 hparse, hneg (-1) (by omega)]

/-- Witness for C6: under `cProto` (built with ids 1/1) the unregistered
message id 5, the unregistered response id 7, and an ErrorResponse
envelope (id -1) arriving at `decode_message` are all rejected. -/
theorem decode_unknown_id_witness :
    decode_message cProto cW (JVal.jobj [("m", JVal.jobj []), ("t", JVal.jint 5)]) =
      Except.error (DecodeErr.unregisteredMessageID 5) ∧
    decode_response cProto cR (JVal.jobj [("m", JVal.jobj []), ("t", JVal.jint 7)]) =
      Except.error (DecodeErr.unregisteredMessageID 7) ∧
    (alistGet cProto.message_types_by_id (-1) = none ∧
     alistGet cProto.message_types_by_id (-2) = none) ∧
    decode_message cProto cW (JVal.jobj [("m", JVal.jobj []), ("t", JVal.jint (-1))]) =
      Except.error (DecodeErr.unregisteredMessageID (-1)) := by
  have h := decode_unknown_id cW cR [(1, PingT.ping)] [(1, RType.user PongT.pong)]
    none true true false cProto
    (JVal.jobj [("m", JVal.jobj []), ("t", JVal.jint 5)])
    (JVal.jobj [("m", JVal.jobj []), ("t", JVal.jint 7)])
    (JVal.jobj [("m", JVal.jobj []), ("t", JVal.jint (-1))])
    5 7 [] [] [] rfl
  exact ⟨h.1 rfl rfl, h.2.1 rfl rfl, h.2.2.1, h.2.2.2 rfl⟩

/-- Claim C8: constructing a protocol in which some registered Message
class declares a response class that is absent from the response registry
(after the built-in auto-registrations, which therefore count as present)
fails at construction with the coverage ConfigError — `protocolInit`
returns the error and no protocol value, so no partially-built protocol
exists.  The other construction stages are assumed to pass (hypotheses
`h1`-`h6`), isolating the coverage violation. -/
theorem config_error_missing_response [DecidableEq MT] [DecidableEq UT]
    (W : MsgWorld MT MI UT) (R : RspWorld UT UI)
    (mts : List (Int × MT)) (rts : List (Int × RType UT))
    (tk : Option String) (pc lg ts : Bool)
    (mById : List (Int × MT)) (mByType : List (MT × Int))
    (rById rById1 rById2 : List (Int × RType UT))
    (rByType rByType1 rByType2 : List (RType UT × Int))
    (im : Int) (T : MT) (rt : RType UT)
    (h1 : buildMsgMaps W mts [] [] = Except.ok (mById, mByType))
    (h2 : buildRspMaps R rts [] [] = Except.ok (rById, rByType))
    (h3 : regIfNot rById rByType RType.errorResponse (-1) = Except.ok (rById1, rByType1))
    (h4 : regIfNot rById1 rByType1 RType.emptyResponse (-2) = Except.ok (rById2, rByType2))
    (h5 : ∀ q ∈ mts, W.get_response_types q.2 ≠ [] ∧
          (W.get_response_types q.2).dedup.length = (W.get_response_types q.2).length)
    (h6 : ∀ q ∈ mts, ∀ x ∈ W.get_response_types q.2, rIoprepped R x = true)
    (h7 : (im, T) ∈ mts) (h8 : rt ∈ W.get_response_types T)
    (h9 : alistContains rByType2 rt = false) :
    protocolInit W R mts rts tk pc lg ts =
      Except.error ConfigError.missingResponseType := by
  have hflat : rt ∈ (mts.map (fun q => W.get_response_types q.2)).flatten := by
    rw [List.mem_flatten]
    exact ⟨W.get_response_types T, List.mem_map.mpr ⟨(im, T), h7, rfl⟩, h8⟩
  have hok : ∀ x ∈ (([] : List (RType UT)) ++
      (mts.map (fun q => W.get_response_types q.2)).flatten),
      rIoprepped R x = true := by
    intro x hx
    rw [List.nil_append, List.mem_flatten] at hx
    obtain ⟨l, hl, hxl⟩ := hx
    obtain ⟨q, hq, rfl⟩ := List.mem_map.mp hl
    exact h6 q hq x hxl
  unfold protocolInit
  simp only [h1, except_bind_ok]
  simp only [h2, except_bind_ok]
  simp only [h3, except_bind_ok]
  simp only [h4, except_bind_ok]
  rw [collectResponseTypes_eq W mts h5 []]
  simp only [except_bind_ok]
  rw [checkCoverage_missing R rByType2 _ rt hok (by simpa using hflat) h9]
  rfl

/-- Witness for C8: `Ping` declares `[EmptyResponse, Pong]`, but the
response map is empty; after auto-registration EmptyResponse is present
(the built-ins count) while `Pong` is absent, so construction fails with
the coverage error. -/
theorem config_error_missing_response_witness :
    protocolInit cW cR [(1, PingT.ping)] [] none true true false =
      Except.error ConfigError.missingResponseType :=
  config_error_missing_response cW cR [(1, PingT.ping)] [] none true true false
    [(1, PingT.ping)] [(PingT.ping, 1)]
    [] [(-1, RType.errorResponse)] [(-1, RType.errorResponse), (-2, RType.emptyResponse)]
    [] [(RType.errorResponse, -1)] [(RType.errorResponse, -1), (RType.emptyResponse, -2)]
    1 PingT.ping (RType.user PongT.pong)
    rfl rfl rfl rfl (by decide) (by decide) (by decide) (by decide) rfl

/-- Claim C9: after construction the response registry maps ErrorResponse
to -1 and EmptyResponse to -2 — unless the caller explicitly mapped that
concrete class to an id of their own, in which case the caller's id is
honored and no entry at the reserved negative id exists; caller-supplied
ids are asserted non-negative, so the reserved ids never collide. -/
theorem builtin_response_ids [DecidableEq MT] [DecidableEq UT]
    (W : MsgWorld MT MI UT) (R : RspWorld UT UI)
    (mts : List (Int × MT)) (rts : List (Int × RType UT))
    (tk : Option String) (pc lg ts : Bool) (p : Protocol MT UT)
    (hinit : protocolInit W R mts rts tk pc lg ts = Except.ok p) :
    ((∀ q ∈ rts, q.2 ≠ RType.errorResponse) →
       alistGet p.response_ids_by_type RType.errorResponse = some (-1) ∧
       alistGet p.response_types_by_id (-1) = some RType.errorResponse) ∧
    (∀ i, (i, RType.errorResponse) ∈ rts →
       (∀ j, (j, RType.errorResponse) ∈ rts → j = i) →
       alistGet p.response_ids_by_type RType.errorResponse = some i ∧
       alistGet p.response_types_by_id (-1) = none ∧ 0 ≤ i) ∧
    ((∀ q ∈ rts, q.2 ≠ RType.emptyResponse) →
       alistGet p.response_ids_by_type RType.emptyResponse = some (-2) ∧
       alistGet p.response_types_by_id (-2) = some RType.emptyResponse) ∧
    (∀ i, (i, RType.emptyResponse) ∈ rts →
       (∀ j, (j, RType.emptyResponse) ∈ rts → j = i) →
       alistGet p.response_ids_by_type RType.emptyResponse = some i ∧
       alistGet p.response_types_by_id (-2) = none ∧ 0 ≤ i) := by
  obtain ⟨mById, mByType, rById, rByType, rById1, rByType1, rById2, rByType2,
          arts, h1, h2, h3, h4, h5, h6, h7, hp⟩ :=
    protocolInit_inv W R mts rts tk pc lg ts p hinit
  subst hp
  simp only
  have hEne : RType.emptyResponse ≠ (RType.errorResponse : RType UT) := fun h =>
    RType.noConfusion h
  have hI21 : (-2 : Int) ≠ -1 := by omega
  have hI12 : (-1 : Int) ≠ -2 := by omega
  have hIdNeg : ∀ j : Int, j < 0 → alistGet rById j = none := fun j hj =>
    buildRegMaps_byId_neg (rIoprepped R) rts [] [] rById rByType h2 j hj rfl
  refine ⟨?_, ?_, ?_, ?_⟩
  · -- ErrorResponse not caller-mapped: auto-registered at -1.
    intro habs
    have hty : alistGet rByType RType.errorResponse = none :=
      buildRegMaps_byType_absent (rIoprepped R) rts [] [] rById rByType h2
        RType.errorResponse habs
    rcases regIfNot_inv rById rByType RType.errorResponse (-1) rById1 rByType1 h3 with
      ⟨hc3, hId3, hTy3⟩ | ⟨hc3, hfree3, hId3, hTy3⟩
    · rw [alistContains, hty] at hc3
      exact Bool.noConfusion hc3
    · subst hId3
      subst hTy3
      rcases regIfNot_inv _ _ RType.emptyResponse (-2) rById2 rByType2 h4 with
        ⟨hc4, hId4, hTy4⟩ | ⟨hc4, hfree4, hId4, hTy4⟩
      · subst hId4
        subst hTy4
        exact ⟨alistGet_set_self _ _ _, alistGet_set_self _ _ _⟩
      · subst hId4
        subst hTy4
        constructor
        · rw [alistGet_set_ne _ _ _ _ hEne]
          exact alistGet_set_self _ _ _
        · rw [alistGet_set_ne _ _ _ _ hI21]
          exact alistGet_set_self _ _ _
  · -- ErrorResponse caller-mapped at i.
    intro i hmem huniq
    have hty : alistGet rByType RType.errorResponse = some i :=
      buildRegMaps_byType_present (rIoprepped R) rts [] [] rById rByType h2
        RType.errorResponse i hmem huniq
    have hnn : 0 ≤ i :=
      buildRegMaps_ids_nonneg (rIoprepped R) rts [] [] _ h2 (i, RType.errorResponse) hmem
    rcases regIfNot_inv rById rByType RType.errorResponse (-1) rById1 rByType1 h3 with
      ⟨hc3, hId3, hTy3⟩ | ⟨hc3, hfree3, hId3, hTy3⟩
    · have hneg1 : alistGet rById1 (-1) = none := by
        rw [hId3]
        exact hIdNeg (-1) (by omega)
      have hty1 : alistGet rByType1 RType.errorResponse = some i := by
        rw [hTy3]
        exact hty
      rcases regIfNot_inv _ _ RType.emptyResponse (-2) rById2 rByType2 h4 with
        ⟨hc4, hId4, hTy4⟩ | ⟨hc4, hfree4, hId4, hTy4⟩
      · refine ⟨?_, ?_, hnn⟩
        · rw [hTy4]
          exact hty1
        · rw [hId4]
          exact hneg1
      · refine ⟨?_, ?_, hnn⟩
        · rw [hTy4, alistGet_set_ne _ _ _ _ hEne]
          exact hty1
        · rw [hId4, alistGet_set_ne _ _ _ _ hI21]
          exact hneg1
    · rw [alistContains, hty] at hc3
      exact Bool.noConfusion hc3
  · -- EmptyResponse not caller-mapped: auto-registered at -2.
    intro habs
    have hty : alistGet rByType RType.emptyResponse = none :=
      buildRegMaps_byType_absent (rIoprepped R) rts [] [] rById rByType h2
        RType.emptyResponse habs
    have hty1 : alistGet rByType1 RType.emptyResponse = none := by
      rcases regIfNot_inv rById rByType RType.errorResponse (-1) rById1 rByType1 h3 with
        ⟨hc3, hId3, hTy3⟩ | ⟨hc3, hfree3, hId3, hTy3⟩
      · rw [hTy3]
        exact hty
      · rw [hTy3, alistGet_set_ne _ _ _ _ (fun h => RType.noConfusion h)]
        exact hty
    have hId1 : alistGet rById1 (-2) = none := by
      rcases regIfNot_inv rById rByType RType.errorResponse (-1) rById1 rByType1 h3 with
        ⟨hc3, hId3, hTy3⟩ | ⟨hc3, hfree3, hId3, hTy3⟩
      · rw [hId3]
        exact hIdNeg (-2) (by omega)
      · rw [hId3, alistGet_set_ne _ _ _ _ hI12]
        exact hIdNeg (-2) (by omega)
    rcases regIfNot_inv _ _ RType.emptyResponse (-2) rById2 rByType2 h4 with
      ⟨hc4, hId4, hTy4⟩ | ⟨hc4, hfree4, hId4, hTy4⟩
    · rw [alistContains, hty1] at hc4
      exact Bool.noConfusion hc4
    · subst hId4
      subst hTy4
      exact ⟨alistGet_set_self _ _ _, alistGet_set_self _ _ _⟩
  · -- EmptyResponse caller-mapped at i.
    intro i hmem huniq
    have hty : alistGet rByType RType.emptyResponse = some i :=
      buildRegMaps_byType_present (rIoprepped R) rts [] [] rById rByType h2
        RType.emptyResponse i hmem huniq
    have hnn : 0 ≤ i :=
      buildRegMaps_ids_nonneg (rIoprepped R) rts [] [] _ h2 (i, RType.emptyResponse) hmem
    have hty1 : alistGet rByType1 RType.emptyResponse = some i := by
      rcases regIfNot_inv rById rByType RType.errorResponse (-1) rById1 rByType1 h3 with
        ⟨hc3, hId3, hTy3⟩ | ⟨hc3, hfree3, hId3, hTy3⟩
      · rw [hTy3]
        exact hty
      · rw [hTy3, alistGet_set_ne _ _ _ _ (fun h => RType.noConfusion h)]
        exact hty
    have hId1 : alistGet rById1 (-2) = none := by
      rcases regIfNot_inv rById rByType RType.errorResponse (-1) rById1 rByType1 h3 with
        ⟨hc3, hId3, hTy3⟩ | ⟨hc3, hfree3, hId3, hTy3⟩
      · rw [hId3]
        exact hIdNeg (-2) (by omega)
      · rw [hId3, alistGet_set_ne _ _ _ _ hI12]
        exact hIdNeg (-2) (by omega)
    rcases regIfNot_inv _ _ RType.emptyResponse (-2) rById2 rByType2 h4 with
      ⟨hc4, hId4, hTy4⟩ | ⟨hc4, hfree4, hId4, hTy4⟩
    · subst hId4
      subst hTy4
      exact ⟨hty1, hId1, hnn⟩
    · rw [alistContains, hty1] at hc4
      exact Bool.noConfusion hc4

/-- Witness for C9: with no caller-supplied builtin mappings `cProto` maps
ErrorResponse at -1 / EmptyResponse at -2; mapping ErrorResponse
explicitly at 0 honors that id and leaves id -1 unregistered. -/
theorem builtin_response_ids_witness :
    (alistGet cProto.response_ids_by_type RType.errorResponse = some (-1) ∧
     alistGet cProto.response_types_by_id (-1) = some RType.errorResponse) ∧
    (alistGet cProto.response_ids_by_type RType.emptyResponse = some (-2) ∧
     alistGet cProto.response_types_by_id (-2) = some RType.emptyResponse) ∧
    (alistGet cProto2.response_ids_by_type RType.errorResponse = some 0 ∧
     alistGet cProto2.response_types_by_id (-1) = none ∧ 0 ≤ (0 : Int)) := by
  have hA := builtin_response_ids cW cR [(1, PingT.ping)] [(1, RType.user PongT.pong)]
    none true true false cProto rfl
  have hB := builtin_response_ids cW cR [(1, PingT.ping)]
    [(0, RType.errorResponse), (1, RType.user PongT.pong)]
    none true true false cProto2 rfl
  refine ⟨hA.1 (by decide), hA.2.2.1 (by decide), hB.2.1 0 (by decide) ?_⟩
  intro j hj
  simp at hj
  exact hj

/-- Claim C10: construction fails when two distinct registered Message
classes share a `__name__`, even with unique ids and all other invariants
satisfied (hypotheses `h1`-`hcov` make every earlier stage pass) — the
unique-base-names ValueError of lines 118-125, a registry-closure
constraint beyond the spec's stated invariants. -/
theorem config_error_duplicate_names [DecidableEq MT] [DecidableEq UT]
    (W : MsgWorld MT MI UT) (R : RspWorld UT UI)
    (mts : List (Int × MT)) (rts : List (Int × RType UT))
    (tk : Option String) (pc lg ts : Bool)
    (mById : List (Int × MT)) (mByType : List (MT × Int))
    (rById rById1 rById2 : List (Int × RType UT))
    (rByType rByType1 rByType2 : List (RType UT × Int))
    (i1 i2 : Int) (T1 T2 : MT)
    (h1 : buildMsgMaps W mts [] [] = Except.ok (mById, mByType))
    (h2 : buildRspMaps R rts [] [] = Except.ok (rById, rByType))
    (h3 : regIfNot rById rByType RType.errorResponse (-1) = Except.ok (rById1, rByType1))
    (h4 : regIfNot rById1 rByType1 RType.emptyResponse (-2) = Except.ok (rById2, rByType2))
    (h5 : ∀ q ∈ mts, W.get_response_types q.2 ≠ [] ∧
          (W.get_response_types q.2).dedup.length = (W.get_response_types q.2).length)
    (hcov : checkCoverage R rByType2 (([] : List (RType UT)) ++
            (mts.map (fun q => W.get_response_types q.2)).flatten) = Except.ok ())
    (hT1 : (i1, T1) ∈ mts) (hT2 : (i2, T2) ∈ mts)
    (hne : T1 ≠ T2) (hnm : W.name T1 = W.name T2) :
    protocolInit W R mts rts tk pc lg ts =
      Except.error ConfigError.duplicateTypeNames := by
  have hs1 := buildRegMaps_byType_isSome W.ioprepped mts [] [] mById mByType h1
    (i1, T1) hT1
  have hs2 := buildRegMaps_byType_isSome W.ioprepped mts [] [] mById mByType h1
    (i2, T2) hT2
  obtain ⟨v1, hv1⟩ := Option.isSome_iff_exists.mp hs1
  obtain ⟨v2, hv2⟩ := Option.isSome_iff_exists.mp hs2
  have hm1 : (T1, v1) ∈ mByType := alistGet_mem hv1
  have hm2 : (T2, v2) ∈ mByType := alistGet_mem hv2
  have hnodup : ¬ (mByType.map (fun q => W.name q.1)).Nodup := by
    intro hnd
    have := List.inj_on_of_nodup_map hnd hm1 hm2 hnm
    exact hne (congrArg Prod.fst this)
  have hlt : (mByType.map (fun q => W.name q.1)).dedup.length <
      (mByType.map (fun q => W.name q.1)).length := by
    have hsub := List.dedup_sublist (mByType.map (fun q => W.name q.1))
    have hle := hsub.length_le
    have hneq : (mByType.map (fun q => W.name q.1)).dedup ≠
        mByType.map (fun q => W.name q.1) := fun he =>
      hnodup (he ▸ List.nodup_dedup (mByType.map (fun q => W.name q.1)))
    have hnl : (mByType.map (fun q => W.name q.1)).dedup.length ≠
        (mByType.map (fun q => W.name q.1)).length := fun hl =>
      hneq (hsub.eq_of_length hl)
    omega
  have hlen : (mByType.map (fun q => W.name q.1)).length = mByType.length :=
    List.length_map _ _
  have hlenle : mByType.length ≤ mts.length := by
    have := buildRegMaps_byType_len W.ioprepped mts [] [] mById mByType h1
    simpa using this
  have hcond : (mByType.map (fun q => W.name q.1)).dedup.length ≠ mts.length := by
    omega
  have huniq : checkUniqueNames W mts mByType =
      Except.error ConfigError.duplicateTypeNames := by
    unfold checkUniqueNames
    rw [if_pos hcond]
  unfold protocolInit
  simp only [h1, except_bind_ok]
  simp only [h2, except_bind_ok]
  simp only [h3, except_bind_ok]
  simp only [h4, except_bind_ok]
  rw [collectResponseTypes_eq W mts h5 []]
  simp only [except_bind_ok]
  rw [hcov]
  simp only [except_bind_ok]
  rw [huniq]
  rfl

/-- Witness for C10: two distinct classes named "Ping" at unique ids 1
and 2, with `Pong` registered so every other invariant holds, still fail
construction with the duplicate-names error. -/
theorem config_error_duplicate_names_witness :
    protocolInit cW2 cR [(1, Ping2T.a), (2, Ping2T.b)] [(1, RType.user PongT.pong)]
        none true true false =
      Except.error ConfigError.duplicateTypeNames :=
  config_error_duplicate_names cW2 cR [(1, Ping2T.a), (2, Ping2T.b)]
    [(1, RType.user PongT.pong)] none true true false
    [(1, Ping2T.a), (2, Ping2T.b)] [(Ping2T.a, 1), (Ping2T.b, 2)]
    [(1, RType.user PongT.pong)]
    [(1, RType.user PongT.pong), (-1, RType.errorResponse)]
    [(1, RType.user PongT.pong), (-1, RType.errorResponse), (-2, RType.emptyResponse)]
    [(RType.user PongT.pong, 1)]
    [(RType.user PongT.pong, 1), (RType.errorResponse, -1)]
    [(RType.user PongT.pong, 1), (RType.errorResponse, -1), (RType.emptyResponse, -2)]
    1 2 Ping2T.a Ping2T.b
    rfl rfl rfl rfl (by decide) rfl (by decide) (by decide) (by decide) rfl

end EfroMessage
